import Mathlib

/-!
Shallow embedding of `src/transcribe.py` — the `cli` command of the
mlhub "openai transcribe" tool — together with a spec-side model of the
`OutputHandler` collaborator (whose source file `output_handler.py` is
not part of this snapshot), and proofs about the rendering layer.

Python strings are embedded as `String` (character-level operations work
on `List Char`), Python `None`-able CLI options as `Option String`,
numeric timestamps as `ℚ`, and the filesystem / model collaborators as an
explicit `Env` record, so that one run of `cli` is a pure function of its
arguments and environment.
-/

namespace Transcribe

/-- Whitespace test used by `str.strip()` (ASCII subset: space, tab, CR, LF). -/
def pySpace (c : Char) : Bool := c.isWhitespace

/-- Python `str.strip()` on a list of characters: drop whitespace from
both ends. -/
def pyStrip (l : List Char) : List Char :=
  ((l.dropWhile pySpace).reverse.dropWhile pySpace).reverse

/-- Python `str.split(sep)` for a one-character separator:
`pySplitCore sep rest acc` processes `rest`, `acc` holding the current
piece in reverse. The result is always a non-empty list of pieces. -/
def pySplitCore (sep : Char) : List Char → List Char → List (List Char)
  | [], acc => [acc.reverse]
  | c :: rest, acc =>
    if c = sep then acc.reverse :: pySplitCore sep rest []
    else pySplitCore sep rest (c :: acc)

/-- Python `s.split(sep)[-1]` (line 102 of `transcribe.py`): the last
piece of the split. A split is never empty, so `[-1]` never fails. -/
def pySplitLast (s : String) (sep : Char) : String :=
  String.mk ((pySplitCore sep s.toList []).getLastD [])

/-- Python truthiness of an optional string: `None` and `""` are falsy. -/
def pyTruthy : Option String → Bool
  | none => false
  | some s => !(s == "")

/-- POSIX `os.path.join` on two components: an absolute second component
wins; otherwise the components are glued with a `/` unless the first is
empty or already ends in `/`. -/
def pyJoin (a b : String) : String :=
  if b.toList.take 1 = ['/'] then b
  else if a = "" || a.toList.getLast? = some '/' then a ++ b
  else a ++ "/" ++ b

/-- Characters `shlex.quote` considers safe (ASCII `\w` plus
`@ % + = : , . - ` and the slash). -/
def shlexSafe (c : Char) : Bool :=
  c.isAlphanum || "_@%+=:,./-".toList.contains c

/-- Python `shlex.quote` (line 96 of `transcribe.py`). -/
def shlexQuote (s : String) : String :=
  if s = "" then "\x27\x27"
  else if s.toList.all shlexSafe then s
  else "\x27" ++ s.replace "\x27" "\x27\x22\x27\x22\x27" ++ "\x27"

/-- A decoder-produced segment (`result["segments"][i]`): decoded text
and start/end timestamps in seconds. -/
structure Segment where
  text : String
  start : ℚ
  «end» : ℚ
  deriving DecidableEq

/-- The transcription result handed to the rendering layer: the ordered
segments and the (optional) detected language. -/
structure TranscriptionResult where
  segments : List Segment
  language : Option String
  deriving DecidableEq

/-- The sentence-terminating punctuation marks of line 113 of
`transcribe.py`. -/
def terminators : List Char := ['.', '?', '!', '。', '？', '！']

/-- Python `" ".join(buffer)` on a buffer of character lists. -/
def joinSpaces (buf : List (List Char)) : String :=
  String.mk (List.intercalate [' '] buf)

/-- The state threaded through the console loop of lines 106–122:
the transcription result being read, the accumulating `text_buffer`,
and the lines printed so far. -/
structure RenderState where
  result : TranscriptionResult
  buffer : List (List Char)
  printed : List String
  deriving DecidableEq

/-- One iteration of the console loop (lines 110–117): append the
trimmed text to the buffer, then index its last character — an
`IndexError` when the trimmed text is empty — and flush the buffer as a
line when that character is a sentence terminator. -/
def consoleStepSt (st : RenderState) (seg : Segment) : Except String RenderState :=
  let t := pyStrip seg.text.toList
  let buffer1 := st.buffer ++ [t]
  match t.getLast? with
  | none => Except.error "IndexError: string index out of range"
  | some c =>
    if c ∈ terminators then
      Except.ok ⟨st.result, [], st.printed ++ [joinSpaces buffer1]⟩
    else
      Except.ok ⟨st.result, buffer1, st.printed⟩

/-- The console loop over a list of segments; a raised `IndexError`
propagates and aborts the run. -/
def runConsoleAux (st : RenderState) : List Segment → Except String RenderState
  | [] => Except.ok st
  | seg :: rest =>
    match consoleStepSt st seg with
    | Except.error e => Except.error e
    | Except.ok st1 => runConsoleAux st1 rest

/-- The whole console path (lines 106–122): the loop over
`result["segments"]`, then the flush of any non-empty remaining buffer
(lines 120–122). -/
def runConsole (r : TranscriptionResult) : Except String RenderState :=
  match runConsoleAux ⟨r, [], []⟩ r.segments with
  | Except.error e => Except.error e
  | Except.ok st =>
    if st.buffer = [] then Except.ok st
    else Except.ok ⟨st.result, st.buffer, st.printed ++ [joinSpaces st.buffer]⟩

/-- The lines printed by the console path, or the raised error. -/
def consoleRender (r : TranscriptionResult) : Except String (List String) :=
  match runConsole r with
  | Except.error e => Except.error e
  | Except.ok st => Except.ok st.printed

/-- Sentence grouping as the claim describes it: trim each text, append
it to the buffer, flush the buffer joined by single spaces exactly when
the current trimmed text ends with a terminator; after the loop flush
any non-empty remainder. (Stated for comparison with `consoleRender`.) -/
def sentenceLinesAux : List String → List (List Char) → List String
  | [], buf => if buf = [] then [] else [joinSpaces buf]
  | t :: rest, buf =>
    let tt := pyStrip t.toList
    let buf1 := buf ++ [tt]
    match tt.getLast? with
    | some c =>
      if c ∈ terminators then joinSpaces buf1 :: sentenceLinesAux rest []
      else sentenceLinesAux rest buf1
    | none => sentenceLinesAux rest buf1

/-- Sentence grouping of a list of segment texts, starting from an empty
buffer. -/
def sentenceLines (texts : List String) : List String :=
  sentenceLinesAux texts []

/-- The final flush of a buffer: one joined line when non-empty. -/
def flushTail (buf : List (List Char)) : List String :=
  if buf = [] then [] else [joinSpaces buf]

/-- The external collaborators of `cli`: the command working directory,
the filesystem existence test, and the loaded model's `transcribe`
capability (called with the quoted input path and the language option). -/
structure Env where
  cwd : String
  pathExists : String → Bool
  transcribe : String → Option String → TranscriptionResult

instance {ε α : Type} [DecidableEq ε] [DecidableEq α] : DecidableEq (Except ε α) := fun
  | Except.error a, Except.error b =>
    if h : a = b then Decidable.isTrue (by rw [h])
    else Decidable.isFalse (fun he => h (by injection he))
  | Except.error _, Except.ok _ => Decidable.isFalse (fun he => by injection he)
  | Except.ok _, Except.error _ => Decidable.isFalse (fun he => by injection he)
  | Except.ok a, Except.ok b =>
    if h : a = b then Decidable.isTrue (by rw [h])
    else Decidable.isFalse (fun he => h (by injection he))

/-- The observable outcome of one `cli` run: a fatal `sys.exit` with its
one-line diagnostic (non-zero process exit), a constructed
`OutputHandler(format, path).write(result)` call, or the console
sentence-grouping output. -/
inductive CliResult where
  | fatal (msg : String)
  | handlerCall (format : String) (path : Option String) (result : TranscriptionResult)
  | consoleOut (rendered : Except String RenderState)
  deriving DecidableEq

/-- The output files a `cli` outcome opens for writing: only a handler
call with a file path writes a file. -/
def filesWritten : CliResult → List String
  | CliResult.handlerCall _ (some p) _ => [p]
  | _ => []

/-- The tool name `pkg` (line 68). -/
def pkg : String := "openai"

/-- The subcommand name `cmd` (line 69). -/
def cmd : String := "transcribe"

/-- A diagnostic in the shape of the f-strings of lines 82, 87 and 93:
the tool and subcommand name, a colon, and the message. -/
def diag (msg : String) : String := pkg ++ " " ++ cmd ++ ": " ++ msg

/-- Shallow embedding of `cli` (lines 48–122 of `transcribe.py`): the
filename check, input path resolution and existence check, output
pre-existence check, the `model.transcribe` call on the shell-quoted
path, and the dispatch between the `OutputHandler` call (with the
explicit or extension-derived format) and the console fallback. -/
def cli (env : Env) (filename lang format output : Option String) : CliResult :=
  if !pyTruthy filename then
    CliResult.fatal (diag "A filename is required.")
  else
    let path := pyJoin env.cwd (filename.getD "")
    if !env.pathExists path then
      CliResult.fatal (diag ("File not found: " ++ path))
    else if pyTruthy output && env.pathExists (pyJoin env.cwd (output.getD "")) then
      CliResult.fatal (diag ("Output file already exists: " ++ output.getD ""))
    else
      let result := env.transcribe (shlexQuote path) lang
      if pyTruthy format || pyTruthy output then
        CliResult.handlerCall
          (if pyTruthy format then format.getD "" else pySplitLast (output.getD "") '.')
          (if pyTruthy output then some (pyJoin env.cwd (output.getD "")) else none)
          result
      else
        CliResult.consoleOut (runConsole result)

/-- The five recognized output formats. -/
def supportedFormats : List String := ["txt", "json", "srt", "tsv", "vtt"]

/-- Modelled from the spec: the `OutputHandler.write` entry point of
`output_handler.py`, a file that is not part of this repository
snapshot. Per §4.1 of the spec it fails with `UnsupportedFormatError`
when the format is not one of the five recognized kinds and otherwise
serializes the result; only the success/error split is modelled here. -/
def handlerWrite (format : String) (_path : Option String)
    (_r : TranscriptionResult) : Except String Unit :=
  if format ∈ supportedFormats then Except.ok ()
  else Except.error "UnsupportedFormatError"

/-- Modelled from the spec: the timestamp conversion of
`output_handler.py` (not in the snapshot): `t * 1000` rounded to the
nearest millisecond, then hours, minutes, seconds and milliseconds by
integer division and modulo. -/
def timestampFields (t : ℚ) : ℤ × ℤ × ℤ × ℤ :=
  let ms := ⌊t * 1000 + 1 / 2⌋
  (ms / 3600000, ms % 3600000 / 60000, ms % 60000 / 1000, ms % 1000)

/-- Zero-pad the decimal digits of `n` to width `w`. -/
def zeroPad (w : Nat) (n : ℤ) : String :=
  let s := toString n
  String.mk (List.replicate (w - s.length) '0') ++ s

/-- Modelled from the spec: the SRT timestamp `HH:MM:SS,mmm` (comma as
decimal separator), fields zero-padded to 2/2/2/3 digits. -/
def srtTimestamp (t : ℚ) : String :=
  zeroPad 2 (timestampFields t).1 ++ ":" ++ zeroPad 2 (timestampFields t).2.1 ++ ":" ++
    zeroPad 2 (timestampFields t).2.2.1 ++ "," ++ zeroPad 3 (timestampFields t).2.2.2

/-- Modelled from the spec: the VTT timestamp `HH:MM:SS.mmm` (period as
decimal separator), fields zero-padded to 2/2/2/3 digits. -/
def vttTimestamp (t : ℚ) : String :=
  zeroPad 2 (timestampFields t).1 ++ ":" ++ zeroPad 2 (timestampFields t).2.1 ++ ":" ++
    zeroPad 2 (timestampFields t).2.2.1 ++ "." ++ zeroPad 3 (timestampFields t).2.2.2

/-- A segment with the given text and zero timestamps. -/
def mkSeg (t : String) : Segment := ⟨t, 0, 0⟩

/-- A transcription result with the given segment texts. -/
def mkResult (ts : List String) : TranscriptionResult := ⟨ts.map mkSeg, none⟩

/-- A concrete environment: working directory `/work`, an input file
`/work/in.wav` and a pre-existing file `/work/out.txt`. -/
def env0 : Env :=
  ⟨"/work", fun p => p == "/work/in.wav" || p == "/work/out.txt",
    fun _ _ => mkResult ["Hi."]⟩

end Transcribe

namespace Transcribe

lemma pyTruthy_some {s : String} (h : s ≠ "") : pyTruthy (some s) = true := by
  simp [pyTruthy, h]

lemma pyTruthy_none : pyTruthy none = false := rfl

lemma pyTruthy_empty : pyTruthy (some "") = false := rfl

lemma consoleStepSt_result {st : RenderState} {seg : Segment} {st1 : RenderState}
    (h : consoleStepSt st seg = Except.ok st1) : st1.result = st.result := by
  simp only [consoleStepSt] at h
  split at h
  · exact absurd h (by simp)
  · split at h
    · simp only [Except.ok.injEq] at h
      rw [← h]
    · simp only [Except.ok.injEq] at h
      rw [← h]

lemma consoleStepSt_empty {seg : Segment} (st : RenderState)
    (h : pyStrip seg.text.toList = []) :
    consoleStepSt st seg = Except.error "IndexError: string index out of range" := by
  simp only [consoleStepSt]
  rw [h]
  rfl

lemma consoleStepSt_nonempty {seg : Segment} (st : RenderState) (c : Char)
    (hc : (pyStrip seg.text.toList).getLast? = some c) :
    consoleStepSt st seg =
      if c ∈ terminators then
        Except.ok ⟨st.result, [],
          st.printed ++ [joinSpaces (st.buffer ++ [pyStrip seg.text.toList])]⟩
      else
        Except.ok ⟨st.result, st.buffer ++ [pyStrip seg.text.toList], st.printed⟩ := by
  simp only [consoleStepSt]
  rw [hc]

lemma runConsoleAux_result : ∀ (segs : List Segment) (st st' : RenderState),
    runConsoleAux st segs = Except.ok st' → st'.result = st.result := by
  intro segs
  induction segs with
  | nil =>
    intro st st' h
    simp only [runConsoleAux, Except.ok.injEq] at h
    rw [← h]
  | cons seg rest ih =>
    intro st st' h
    cases hstep : consoleStepSt st seg with
    | error e =>
      simp only [runConsoleAux, hstep] at h
      exact Except.noConfusion h
    | ok st1 =>
      simp only [runConsoleAux, hstep] at h
      rw [ih st1 st' h, consoleStepSt_result hstep]

lemma getLast?_of_ne_nil {l : List Char} (h : l ≠ []) : ∃ c, l.getLast? = some c := by
  cases hg : l.getLast? with
  | none => exact absurd (List.getLast?_eq_none_iff.mp hg) h
  | some c => exact ⟨c, rfl⟩

lemma runConsoleAux_err : ∀ (segs : List Segment) (st : RenderState),
    (∃ s ∈ segs, pyStrip s.text.toList = []) →
    runConsoleAux st segs = Except.error "IndexError: string index out of range" := by
  intro segs
  induction segs with
  | nil =>
    intro st h
    simp at h
  | cons seg rest ih =>
    intro st h
    by_cases hh : pyStrip seg.text.toList = []
    · simp only [runConsoleAux, consoleStepSt_empty st hh]
    · obtain ⟨s, hs, hemp⟩ := h
      rcases List.mem_cons.mp hs with rfl | hmem
      · exact absurd hemp hh
      · obtain ⟨c, hc⟩ := getLast?_of_ne_nil hh
        by_cases ht : c ∈ terminators
        · simp only [runConsoleAux, consoleStepSt_nonempty st c hc, if_pos ht]
          exact ih _ ⟨s, hmem, hemp⟩
        · simp only [runConsoleAux, consoleStepSt_nonempty st c hc, if_neg ht]
          exact ih _ ⟨s, hmem, hemp⟩

lemma runConsoleAux_ok : ∀ (segs : List Segment) (st : RenderState),
    (∀ s ∈ segs, pyStrip s.text.toList ≠ []) →
    ∃ st', runConsoleAux st segs = Except.ok st' ∧
      st'.printed ++ flushTail st'.buffer =
        st.printed ++ sentenceLinesAux (segs.map Segment.text) st.buffer := by
  intro segs
  induction segs with
  | nil =>
    intro st _
    exact ⟨st, rfl, rfl⟩
  | cons seg rest ih =>
    intro st h
    have hne : pyStrip seg.text.toList ≠ [] := h seg (List.mem_cons_self seg rest)
    obtain ⟨c, hc⟩ := getLast?_of_ne_nil hne
    have hr : ∀ s ∈ rest, pyStrip s.text.toList ≠ [] :=
      fun s hs => h s (List.mem_cons_of_mem _ hs)
    by_cases ht : c ∈ terminators
    · obtain ⟨st', hrun, hpr⟩ :=
        ih ⟨st.result, [],
          st.printed ++ [joinSpaces (st.buffer ++ [pyStrip seg.text.toList])]⟩ hr
      refine ⟨st', ?_, ?_⟩
      · simp only [runConsoleAux, consoleStepSt_nonempty st c hc, if_pos ht]
        exact hrun
      · rw [hpr]
        simp only [List.map_cons, sentenceLinesAux, hc, if_pos ht]
        simp [List.append_assoc]
    · obtain ⟨st', hrun, hpr⟩ :=
        ih ⟨st.result, st.buffer ++ [pyStrip seg.text.toList], st.printed⟩ hr
      refine ⟨st', ?_, ?_⟩
      · simp only [runConsoleAux, consoleStepSt_nonempty st c hc, if_neg ht]
        exact hrun
      · rw [hpr]
        simp only [List.map_cons, sentenceLinesAux, hc, if_neg ht]

lemma consoleRender_ok_of (r : TranscriptionResult)
    (h : ∀ s ∈ r.segments, pyStrip s.text.toList ≠ []) :
    consoleRender r = Except.ok (sentenceLines (r.segments.map Segment.text)) := by
  obtain ⟨st', hrun, hpr⟩ := runConsoleAux_ok r.segments ⟨r, [], []⟩ h
  simp only [consoleRender, runConsole, hrun]
  by_cases hb : st'.buffer = []
  · simp only [if_pos hb]
    simp only [flushTail, if_pos hb, List.append_nil, List.nil_append] at hpr
    simp [sentenceLines, hpr]
  · simp only [if_neg hb]
    simp only [flushTail, if_neg hb, List.nil_append] at hpr
    simp [sentenceLines, hpr]

lemma consoleRender_err_of (r : TranscriptionResult)
    (h : ∃ s ∈ r.segments, pyStrip s.text.toList = []) :
    consoleRender r = Except.error "IndexError: string index out of range" := by
  simp only [consoleRender, runConsole, runConsoleAux_err r.segments ⟨r, [], []⟩ h]

end Transcribe

namespace Transcribe

/-- C1: with neither an explicit format nor an output destination, when
every segment's trimmed text is non-empty, the console renderer iterates
the segments in order, trims each text, appends it to an accumulating
buffer, and prints the buffer joined by single spaces as one line exactly
when the current trimmed text ends with one of `.`, `?`, `!`, `。`, `？`,
`！`, flushing any non-empty remaining buffer as a final line; in
particular the segment texts `["Hello", "world.", "Next sentence."]`
print as the two lines `Hello world.` and `Next sentence.` in that
order, and `["Hello", "world"]` as the single line `Hello world`. -/
theorem console_sentence_grouping (r : TranscriptionResult)
    (h : ∀ s ∈ r.segments, pyStrip s.text.toList ≠ []) :
    consoleRender r = Except.ok (sentenceLines (r.segments.map Segment.text)) ∧
    consoleRender (mkResult ["Hello", "world.", "Next sentence."]) =
      Except.ok ["Hello world.", "Next sentence."] ∧
    consoleRender (mkResult ["Hello", "world"]) = Except.ok ["Hello world"] :=
  ⟨consoleRender_ok_of r h, by decide, by decide⟩

/-- Witness for C1 at the concrete segment texts of the claim. -/
theorem console_sentence_grouping_witness :
    (∀ s ∈ (mkResult ["Hello", "world.", "Next sentence."]).segments,
      pyStrip s.text.toList ≠ []) ∧
    consoleRender (mkResult ["Hello", "world.", "Next sentence."]) =
      Except.ok (sentenceLines
        ((mkResult ["Hello", "world.", "Next sentence."]).segments.map Segment.text)) :=
  ⟨by decide,
    (console_sentence_grouping (mkResult ["Hello", "world.", "Next sentence."])
      (by decide)).1⟩

/-- C2: the console sentence-grouping path indexes the last character of
each trimmed text with no emptiness guard, so it succeeds exactly when
every segment's trimmed text is non-empty, and a segment whose trimmed
text is empty (for example the whitespace-only text `" "`) makes it fail
with an index error. -/
theorem console_empty_segment_error (r : TranscriptionResult) :
    ((∃ lines, consoleRender r = Except.ok lines) ↔
      ∀ s ∈ r.segments, pyStrip s.text.toList ≠ []) ∧
    consoleRender (mkResult [" "]) =
      Except.error "IndexError: string index out of range" := by
  constructor
  · constructor
    · rintro ⟨lines, hl⟩
      by_contra hcon
      push_neg at hcon
      obtain ⟨s, hs, hemp⟩ := hcon
      rw [consoleRender_err_of r ⟨s, hs, hemp⟩] at hl
      exact Except.noConfusion hl
    · intro hne
      exact ⟨_, consoleRender_ok_of r hne⟩
  · rfl

/-- Witness for C2 at the whitespace-only single segment. -/
theorem console_empty_segment_error_witness :
    ((∃ lines, consoleRender (mkResult [" "]) = Except.ok lines) ↔
      ∀ s ∈ (mkResult [" "]).segments, pyStrip s.text.toList ≠ []) ∧
    consoleRender (mkResult [" "]) =
      Except.error "IndexError: string index out of range" :=
  console_empty_segment_error (mkResult [" "])

/-- C8: the console rendering path never mutates the segments: in the
state threaded through the loop the transcription result after a
successful run is the one that went in — same segments, same order, and
the same text, start and end on each segment. -/
theorem console_segments_unchanged (r : TranscriptionResult) (st' : RenderState)
    (h : runConsole r = Except.ok st') :
    st'.result = r ∧ st'.result.segments = r.segments ∧
    st'.result.segments.map Segment.text = r.segments.map Segment.text ∧
    st'.result.segments.map Segment.start = r.segments.map Segment.start ∧
    st'.result.segments.map Segment.«end» = r.segments.map Segment.«end» := by
  have hres : st'.result = r := by
    simp only [runConsole] at h
    cases hrun : runConsoleAux ⟨r, [], []⟩ r.segments with
    | error e =>
      rw [hrun] at h
      exact Except.noConfusion h
    | ok st1 =>
      rw [hrun] at h
      replace h : (if st1.buffer = [] then Except.ok st1
          else Except.ok ⟨st1.result, st1.buffer,
            st1.printed ++ [joinSpaces st1.buffer]⟩) = Except.ok st' := h
      have h1 : st1.result = r := runConsoleAux_result _ _ _ hrun
      by_cases hb : st1.buffer = []
      · rw [if_pos hb] at h
        injection h with h2
        rw [← h2]
        exact h1
      · rw [if_neg hb] at h
        injection h with h2
        rw [← h2]
        exact h1
  exact ⟨hres, by rw [hres], by rw [hres], by rw [hres], by rw [hres]⟩

/-- Witness for C8 on a one-segment result. -/
theorem console_segments_unchanged_witness :
    (RenderState.mk (mkResult ["Hi."]) [] ["Hi."]).result = mkResult ["Hi."] ∧
    (RenderState.mk (mkResult ["Hi."]) [] ["Hi."]).result.segments =
      (mkResult ["Hi."]).segments ∧
    (RenderState.mk (mkResult ["Hi."]) [] ["Hi."]).result.segments.map Segment.text =
      (mkResult ["Hi."]).segments.map Segment.text ∧
    (RenderState.mk (mkResult ["Hi."]) [] ["Hi."]).result.segments.map Segment.start =
      (mkResult ["Hi."]).segments.map Segment.start ∧
    (RenderState.mk (mkResult ["Hi."]) [] ["Hi."]).result.segments.map Segment.«end» =
      (mkResult ["Hi."]).segments.map Segment.«end» :=
  console_segments_unchanged (mkResult ["Hi."])
    (RenderState.mk (mkResult ["Hi."]) [] ["Hi."]) rfl

/-- C7: the timestamp conversion at `t = 61.5` seconds produces
`00:01:01,500` with the comma decimal separator for SRT and
`00:01:01.500` with the period decimal separator for VTT. -/
theorem timestamp_formatting_61_5 :
    srtTimestamp (61.5 : ℚ) = "00:01:01,500" ∧
    vttTimestamp (61.5 : ℚ) = "00:01:01.500" := by
  have h : timestampFields (61.5 : ℚ) = (0, 1, 1, 500) := by
    norm_num [timestampFields]
  constructor
  · unfold srtTimestamp
    rw [h]
    decide
  · unfold vttTimestamp
    rw [h]
    decide

end Transcribe

namespace Transcribe

lemma pySplitCore_no_sep (sep : Char) : ∀ (l acc : List Char), sep ∉ l →
    pySplitCore sep l acc = [acc.reverse ++ l] := by
  intro l
  induction l with
  | nil =>
    intro acc _
    simp [pySplitCore]
  | cons c rest ih =>
    intro acc h
    have hc : ¬ c = sep := fun he => h (he ▸ List.mem_cons_self c rest)
    simp only [pySplitCore, if_neg hc]
    rw [ih (c :: acc) (fun hm => h (List.mem_cons_of_mem _ hm))]
    simp

lemma pySplitCore_ne_nil (sep : Char) : ∀ (l acc : List Char),
    pySplitCore sep l acc ≠ [] := by
  intro l
  induction l with
  | nil =>
    intro acc
    simp [pySplitCore]
  | cons c rest ih =>
    intro acc
    by_cases hc : c = sep
    · simp [pySplitCore, hc]
    · simp only [pySplitCore, if_neg hc]
      exact ih (c :: acc)

/-- C6: with no filename argument the run terminates at once with the
fatal diagnostic `openai transcribe: A filename is required.` — for
every environment and every other option, so before resolving any input
path, before transcription and before rendering — and writes no output
file. -/
theorem cli_missing_filename (env : Env) (lang format output : Option String) :
    cli env none lang format output = CliResult.fatal (diag "A filename is required.") ∧
    diag "A filename is required." = "openai transcribe: A filename is required." ∧
    filesWritten (cli env none lang format output) = [] := by
  have h1 : cli env none lang format output =
      CliResult.fatal (diag "A filename is required.") := by
    simp [cli, pyTruthy_none]
  exact ⟨h1, by decide, by rw [h1]; rfl⟩

/-- C5: whenever the requested (non-empty) output path already exists,
the run exits fatally with a diagnostic prefixed by the tool and
subcommand name, no output file is opened or written, and the outcome
does not depend on the transcription capability at all — so no
transcription is performed and the pre-existing file is unchanged. -/
theorem cli_output_exists_fatal (env : Env) (fn lang fmt : Option String) (o : String)
    (ho : o ≠ "") (hex : env.pathExists (pyJoin env.cwd o) = true) :
    (∃ m, cli env fn lang fmt (some o) = CliResult.fatal (diag m)) ∧
    filesWritten (cli env fn lang fmt (some o)) = [] ∧
    ∀ tr, cli ⟨env.cwd, env.pathExists, tr⟩ fn lang fmt (some o) =
      cli env fn lang fmt (some o) := by
  have htruthy : pyTruthy (some o) = true := pyTruthy_some ho
  have main : ∃ m, ∀ tr, cli ⟨env.cwd, env.pathExists, tr⟩ fn lang fmt (some o) =
      CliResult.fatal (diag m) := by
    cases h1 : pyTruthy fn with
    | false =>
      exact ⟨"A filename is required.", fun tr => by simp [cli, h1]⟩
    | true =>
      cases h2 : env.pathExists (pyJoin env.cwd (fn.getD "")) with
      | false =>
        exact ⟨"File not found: " ++ pyJoin env.cwd (fn.getD ""),
          fun tr => by simp [cli, h1, h2]⟩
      | true =>
        exact ⟨"Output file already exists: " ++ o,
          fun tr => by simp [cli, h1, h2, htruthy, hex]⟩
  obtain ⟨m, hm⟩ := main
  have hself : cli env fn lang fmt (some o) = CliResult.fatal (diag m) :=
    hm env.transcribe
  exact ⟨⟨m, hself⟩, by rw [hself]; rfl, fun tr => (hm tr).trans hself.symm⟩

/-- Witness for C5 in the environment `env0` where `/work/out.txt`
already exists. -/
theorem cli_output_exists_fatal_witness :
    (∃ m, cli env0 (some "in.wav") none none (some "out.txt") =
      CliResult.fatal (diag m)) ∧
    filesWritten (cli env0 (some "in.wav") none none (some "out.txt")) = [] ∧
    ∀ tr, cli ⟨env0.cwd, env0.pathExists, tr⟩ (some "in.wav") none none
        (some "out.txt") =
      cli env0 (some "in.wav") none none (some "out.txt") :=
  cli_output_exists_fatal env0 (some "in.wav") none none "out.txt"
    (by decide) (by decide)

end Transcribe

namespace Transcribe

/-- C3: with no explicit format, a run with a (non-empty) output
destination behaves identically to the run whose explicit format is the
text after the final `.` of that destination — in particular destination
`out.vtt` with no format behaves identically to explicit format `vtt`;
the handler is invoked on exactly the same format, path and result. -/
theorem cli_extension_inference (env : Env) (fn lang : Option String) (o : String)
    (ho : o ≠ "") :
    cli env fn lang none (some o) =
      cli env fn lang (some (pySplitLast o '.')) (some o) := by
  have hto : pyTruthy (some o) = true := pyTruthy_some ho
  cases h1 : pyTruthy fn with
  | false => simp [cli, h1]
  | true =>
    cases h2 : env.pathExists (pyJoin env.cwd (fn.getD "")) with
    | false => simp [cli, h1, h2]
    | true =>
      cases h3 : env.pathExists (pyJoin env.cwd o) with
      | true => simp [cli, h1, h2, h3, hto]
      | false =>
        by_cases h4 : pySplitLast o '.' = ""
        · simp [cli, h1, h2, h3, hto, h4, pyTruthy_none, pyTruthy_empty]
        · have h5 : pyTruthy (some (pySplitLast o '.')) = true := pyTruthy_some h4
          simp [cli, h1, h2, h3, hto, h5, pyTruthy_none]

/-- Witness for C3: in `env0`, destination `out.vtt` with no explicit
format runs identically to explicit format `vtt`. -/
theorem cli_extension_inference_witness :
    cli env0 (some "in.wav") none none (some "out.vtt") =
      cli env0 (some "in.wav") none (some "vtt") (some "out.vtt") := by
  have h := cli_extension_inference env0 (some "in.wav") none "out.vtt" (by decide)
  have e : pySplitLast "out.vtt" '.' = "vtt" := by decide
  rw [e] at h
  exact h

/-- C4: with no explicit format and an output destination whose
extension is not one of the five recognized kinds, the run hands that
extension to the output handler, whose write fails with
`UnsupportedFormatError`; and the handler raises that same error for any
format string outside the five kinds, which is what a run with such a
(non-empty) explicit format passes to it. -/
theorem cli_unsupported_format (env : Env) (fn lang : Option String) (o : String)
    (hfn : pyTruthy fn = true)
    (hin : env.pathExists (pyJoin env.cwd (fn.getD "")) = true)
    (ho : o ≠ "")
    (hnex : env.pathExists (pyJoin env.cwd o) = false)
    (hbad : pySplitLast o '.' ∉ supportedFormats) :
    (cli env fn lang none (some o) =
        CliResult.handlerCall (pySplitLast o '.') (some (pyJoin env.cwd o))
          (env.transcribe (shlexQuote (pyJoin env.cwd (fn.getD ""))) lang) ∧
      ∀ p r', handlerWrite (pySplitLast o '.') p r' =
        Except.error "UnsupportedFormatError") ∧
    (∀ f : String, f ∉ supportedFormats →
      ∀ p r', handlerWrite f p r' = Except.error "UnsupportedFormatError") ∧
    (∀ f : String, f ≠ "" →
      cli env fn lang (some f) none =
        CliResult.handlerCall f none
          (env.transcribe (shlexQuote (pyJoin env.cwd (fn.getD ""))) lang)) := by
  have hto : pyTruthy (some o) = true := pyTruthy_some ho
  refine ⟨⟨?_, ?_⟩, ?_, ?_⟩
  · simp [cli, hfn, hin, hto, hnex, pyTruthy_none]
  · intro p r'
    simp [handlerWrite, hbad]
  · intro f hf p r'
    simp [handlerWrite, hf]
  · intro f hf
    have h5 : pyTruthy (some f) = true := pyTruthy_some hf
    simp [cli, hfn, hin, h5, pyTruthy_none]

/-- Witness for C4: in `env0`, destination `out.mp3` with no explicit
format. -/
theorem cli_unsupported_format_witness :
    (cli env0 (some "in.wav") none none (some "out.mp3") =
        CliResult.handlerCall (pySplitLast "out.mp3" '.')
          (some (pyJoin env0.cwd "out.mp3"))
          (env0.transcribe (shlexQuote (pyJoin env0.cwd ((some "in.wav").getD "")))
            none) ∧
      ∀ p r', handlerWrite (pySplitLast "out.mp3" '.') p r' =
        Except.error "UnsupportedFormatError") ∧
    (∀ f : String, f ∉ supportedFormats →
      ∀ p r', handlerWrite f p r' = Except.error "UnsupportedFormatError") ∧
    (∀ f : String, f ≠ "" →
      cli env0 (some "in.wav") none (some f) none =
        CliResult.handlerCall f none
          (env0.transcribe (shlexQuote (pyJoin env0.cwd ((some "in.wav").getD "")))
            none)) :=
  cli_unsupported_format env0 (some "in.wav") none "out.mp3"
    (by decide) (by decide) (by decide) (by decide) (by decide)

/-- C9: with a (non-empty) explicit format and no output destination,
the run constructs the output handler with that format and no file path
— it does not take the console path — and conversely the console
sentence-grouping path is taken only when both the format and the
output option are falsy (absent or empty). -/
theorem cli_explicit_format_no_output (env : Env) (fn lang : Option String)
    (f : String) (hf : f ≠ "") (hfn : pyTruthy fn = true)
    (hin : env.pathExists (pyJoin env.cwd (fn.getD "")) = true) :
    cli env fn lang (some f) none =
      CliResult.handlerCall f none
        (env.transcribe (shlexQuote (pyJoin env.cwd (fn.getD ""))) lang) ∧
    ∀ (e : Env) (a l fo ou : Option String) (rend : Except String RenderState),
      cli e a l fo ou = CliResult.consoleOut rend →
        pyTruthy fo = false ∧ pyTruthy ou = false := by
  constructor
  · have h5 : pyTruthy (some f) = true := pyTruthy_some hf
    simp [cli, hfn, hin, h5, pyTruthy_none]
  · intro e a l fo ou rend h
    cases h1 : pyTruthy a with
    | false => simp [cli, h1] at h
    | true =>
      cases h2 : e.pathExists (pyJoin e.cwd (a.getD "")) with
      | false => simp [cli, h1, h2] at h
      | true =>
        cases h3 : pyTruthy ou && e.pathExists (pyJoin e.cwd (ou.getD "")) with
        | true => simp [cli, h1, h2, h3] at h
        | false =>
          cases h4 : pyTruthy fo || pyTruthy ou with
          | true => simp [cli, h1, h2, h3, h4] at h
          | false =>
            simp only [Bool.or_eq_false_iff] at h4
            exact h4

/-- Witness for C9: in `env0`, explicit format `txt` and no output. -/
theorem cli_explicit_format_no_output_witness :
    cli env0 (some "in.wav") none (some "txt") none =
      CliResult.handlerCall "txt" none
        (env0.transcribe (shlexQuote (pyJoin env0.cwd ((some "in.wav").getD "")))
          none) ∧
    ∀ (e : Env) (a l fo ou : Option String) (rend : Except String RenderState),
      cli e a l fo ou = CliResult.consoleOut rend →
        pyTruthy fo = false ∧ pyTruthy ou = false :=
  cli_explicit_format_no_output env0 (some "in.wav") none "txt"
    (by decide) (by decide) (by decide)

/-- C10: splitting a destination that contains no `.` on `.` and taking
the last piece yields the whole string — so a dotless destination such
as `txt` is treated as the format `txt` — and the extension-derivation
step itself never fails: the split is never the empty list. -/
theorem dotless_destination_format (o : String) (h : '.' ∉ o.toList) :
    pySplitLast o '.' = o ∧
    ∀ (s : String) (sep : Char), pySplitCore sep s.toList [] ≠ [] := by
  constructor
  · simp only [pySplitLast, pySplitCore_no_sep '.' o.toList [] h]
    rfl
  · exact fun s sep => pySplitCore_ne_nil sep s.toList []

/-- Witness for C10 at the dotless destination `txt`. -/
theorem dotless_destination_format_witness :
    pySplitLast "txt" '.' = "txt" ∧
    ∀ (s : String) (sep : Char), pySplitCore sep s.toList [] ≠ [] :=
  dotless_destination_format "txt" (by decide)

end Transcribe
